import Mathlib

/-!
Verification of the recursive composable-graph query engine of the
`gpt_index` (llama_index) repository excerpt.

The two provided source files are `tests/indices/query/test_recursive.py`
and `gpt_index/indices/vector_store/vector_indices.py`.  The graph engine
itself (`ComposableGraph`, the per-strategy query engines and the
query-config resolution) lives outside the excerpt, so those parts are
modelled from the specification; definitions taken directly from
`vector_indices.py` say so in their doc comments.
-/

namespace GptIndex

/-- The type tag of an index structure: the four organizing strategies of
the data model.  `DICT` is the tag of the simple vector-store-backed index
(`SimpleIndexDict` / `IndexStructType.DICT` in the source). -/
inductive IndexStructType where
  | LIST
  | TREE
  | KEYWORD_TABLE
  | DICT
deriving DecidableEq, Repr

/-- Modelled from the spec: the query modes referenced by the query-mode
maps.  `DEFAULT` and `EMBEDDING` appear in `vector_indices.py`;
`SUMMARIZE` is a further mode served only by the tree strategy.  The
`QueryMode` enumeration itself lives outside the provided source files. -/
inductive QueryMode where
  | DEFAULT
  | EMBEDDING
  | SUMMARIZE
deriving DecidableEq, Repr

/-- Names of the per-strategy query engines.  The `DICT` entries of
`getQueryMap` come from `GPTSimpleVectorIndex.get_query_map` in the
source; the other engines are modelled from the spec. -/
inductive EngineKind where
  | listQuery
  | treeQuery
  | treeSummarize
  | keywordQuery
  | simpleVectorQuery
deriving DecidableEq, Repr

/-- Modelled from the spec (section 3): a retrievable unit of text.
`childIndexId` is the optional child-index reference that makes the node a
proxy for a nested index. -/
structure Node where
  nodeId : String
  text : String
  childIndexId : Option String
deriving DecidableEq, Repr

/-- Modelled from the spec (section 3): the persistent state of one index —
its unique identifier, its type tag, and its node registry kept in
insertion order. -/
structure IndexStruct where
  index_id : String
  struct_type : IndexStructType
  nodes : List Node
deriving DecidableEq, Repr

/-- Modelled from the spec (section 3): a composable graph owns a mapping
from index identifier to `IndexStruct` plus a designated root
identifier. -/
structure ComposableGraph where
  all_indices : List (String × IndexStruct)
  root_id : String
deriving DecidableEq, Repr

/-- Query parameters, an ordered name/value table (the values are opaque to
the dispatch algorithm). -/
abbrev Params := List (String × String)

/-- Modelled from the spec (section 3): one query-config rule — an optional
specific index identifier, an index-type tag, a query mode and a parameter
table (`QueryConfig` in `gpt_index/indices/query/schema.py`, outside the
provided source files). -/
structure QueryConfig where
  index_struct_id : Option String := none
  index_struct_type : IndexStructType
  query_mode : QueryMode
  query_kwargs : Params := []
deriving DecidableEq, Repr

/-- Shallow embedding of `GPTSimpleVectorIndex.get_query_map`
(`vector_indices.py`, lines 101-107): the simple vector index supports
exactly the `DEFAULT` and `EMBEDDING` modes, both served by
`GPTSimpleVectorIndexQuery`. -/
def simpleVectorGetQueryMap : QueryMode → Option EngineKind
  | QueryMode.DEFAULT => some EngineKind.simpleVectorQuery
  | QueryMode.EMBEDDING => some EngineKind.simpleVectorQuery
  | QueryMode.SUMMARIZE => none

/-- The query-mode map per index type.  The `DICT` row is
`simpleVectorGetQueryMap` from the source; the other rows are modelled
from the spec (their index classes are outside the provided source
files). -/
def getQueryMap : IndexStructType → QueryMode → Option EngineKind
  | IndexStructType.DICT, m => simpleVectorGetQueryMap m
  | IndexStructType.LIST, QueryMode.DEFAULT => some EngineKind.listQuery
  | IndexStructType.LIST, QueryMode.EMBEDDING => some EngineKind.listQuery
  | IndexStructType.LIST, QueryMode.SUMMARIZE => none
  | IndexStructType.TREE, QueryMode.DEFAULT => some EngineKind.treeQuery
  | IndexStructType.TREE, QueryMode.EMBEDDING => some EngineKind.treeQuery
  | IndexStructType.TREE, QueryMode.SUMMARIZE => some EngineKind.treeSummarize
  | IndexStructType.KEYWORD_TABLE, QueryMode.DEFAULT => some EngineKind.keywordQuery
  | IndexStructType.KEYWORD_TABLE, QueryMode.EMBEDDING => none
  | IndexStructType.KEYWORD_TABLE, QueryMode.SUMMARIZE => none

/-- Does the config rule name this index's identifier exactly? -/
def idMatches (s : IndexStruct) (c : QueryConfig) : Bool :=
  decide (c.index_struct_id = some s.index_id)

/-- Does the config rule's type tag match this index's type? -/
def typeMatches (s : IndexStruct) (c : QueryConfig) : Bool :=
  decide (c.index_struct_type = s.struct_type)

/-- Modelled from the spec (section 4.3): iterate the config list; return
the first entry whose identifier matches exactly; else the first whose
type tag matches; else the built-in default `(QueryMode.DEFAULT, [])`.
The resolution code lives outside the provided source files. -/
def resolveConfig (s : IndexStruct) (cfgs : List QueryConfig) : QueryMode × Params :=
  match cfgs.find? (idMatches s) with
  | some c => (c.query_mode, c.query_kwargs)
  | none =>
    match cfgs.find? (typeMatches s) with
    | some c => (c.query_mode, c.query_kwargs)
    | none => (QueryMode.DEFAULT, [])

/-- Modelled from the spec (section 8): the deterministic echo synthesis
stub used by the recursive-query tests.  On the first call (no prior
answer) it returns the query text joined with the incoming chunk text by
the fixed `:` delimiter; a refinement call returns the prior answer
unchanged (as the mock refine template of the test suite does), so the
end-to-end trace is the query text once per recursion level followed by
the first selected leaf text. -/
def echoSynth (q : String) (prior : Option String) (chunk : String) : String :=
  match prior with
  | none => q ++ ":" ++ chunk
  | some a => a

/-- Look an index identifier up in the graph's forest. -/
def lookupIndex (g : ComposableGraph) (sid : String) : Option IndexStruct :=
  List.lookup sid g.all_indices

/-- Modelled from the spec (sections 4.2 and 4.4): the fold step of a
query engine.  Nodes are visited in insertion order; each node's chunk
text is produced by `resolver` (the literal node text for a leaf, the
child index's response for a proxy node, or an error aborting the whole
query); the running answer is refined by the synthesis stub once per
contributing node. -/
def foldNodes (resolver : Node → Except String String) (q : String) :
    Option String → List Node → Except String (Option String)
  | prior, [] => Except.ok prior
  | prior, n :: ns =>
    match resolver n with
    | Except.error e => Except.error e
    | Except.ok chunk => foldNodes resolver q (some (echoSynth q prior chunk)) ns

/-- Modelled from the spec (section 4.4): the recursive query dispatch.
Resolve the reached index's query config, look its mode up in the index
type's query-mode map (an absent mode aborts the query with an error, with
no fallback), then fold the index's nodes; a node carrying a child-index
reference is resolved by recursively querying the child and folding the
child's response text instead of the proxy's literal summary text.  `fuel`
bounds the recursion depth, as the object graph bounds it in the
source. -/
def queryAux (g : ComposableGraph) (cfgs : List QueryConfig) (q : String) :
    Nat → String → Except String String
  | 0, _ => Except.error "max recursion depth reached."
  | Nat.succ fuel, sid =>
    match lookupIndex g sid with
    | none => Except.error "index id not found."
    | some s =>
      match getQueryMap s.struct_type (resolveConfig s cfgs).1 with
      | none => Except.error "Invalid query mode."
      | some _engine =>
        let resolver : Node → Except String String := fun n =>
          match n.childIndexId with
          | some cid => queryAux g cfgs q fuel cid
          | none => Except.ok n.text
        match foldNodes resolver q none s.nodes with
        | Except.error e => Except.error e
        | Except.ok none => Except.error "empty index."
        | Except.ok (some a) => Except.ok a

/-- Modelled from the spec (section 4.4): `ComposableGraph.query` starts
the recursive dispatch at the declared root. -/
def queryGraph (g : ComposableGraph) (cfgs : List QueryConfig) (q : String)
    (fuel : Nat) : Except String String :=
  queryAux g cfgs q fuel g.root_id

/-- Modelled from the spec (section 4.4): the proxy node synthesized for
one child index — its text is the provided summary and its child reference
points at the child's identifier. -/
def mkProxyNode (child : IndexStruct) (summary : String) : Node :=
  { nodeId := child.index_id, text := summary, childIndexId := some child.index_id }

/-- Modelled from the spec (section 4.4): `ComposableGraph.from_indices` —
synthesize one proxy node per child index, build a new root `IndexStruct`
over these proxy nodes with the composing strategy, and register the root
together with every child in `all_indices`.  The children are given as
plain index structs (the recursive absorption of nested graphs reduces to
this flat registration). -/
def from_indices (root_type : IndexStructType) (root_id : String)
    (children : List IndexStruct) (index_summaries : List String) : ComposableGraph :=
  let proxies := (children.zip index_summaries).map fun p => mkProxyNode p.1 p.2
  let root : IndexStruct :=
    { index_id := root_id, struct_type := root_type, nodes := proxies }
  { all_indices := (root_id, root) :: children.map (fun c => (c.index_id, c)),
    root_id := root_id }

/-- The chunk resolver of one recursion level: a proxy node's chunk is the
child index's response, a leaf node's chunk is its literal text. -/
def chunkResolver (g : ComposableGraph) (cfgs : List QueryConfig) (q : String)
    (fuel : Nat) : Node → Except String String := fun n =>
  match n.childIndexId with
  | some cid => queryAux g cfgs q fuel cid
  | none => Except.ok n.text

/-- One-step unfolding of `queryAux` at positive fuel. -/
lemma queryAux_succ (g : ComposableGraph) (cfgs : List QueryConfig) (q : String)
    (fuel : Nat) (sid : String) :
    queryAux g cfgs q (fuel + 1) sid =
      match lookupIndex g sid with
      | none => Except.error "index id not found."
      | some s =>
        match getQueryMap s.struct_type (resolveConfig s cfgs).1 with
        | none => Except.error "Invalid query mode."
        | some _engine =>
          match foldNodes (chunkResolver g cfgs q fuel) q none s.nodes with
          | Except.error e => Except.error e
          | Except.ok none => Except.error "empty index."
          | Except.ok (some a) => Except.ok a := rfl

/-! ### Basic fold and query lemmas -/

/-- Once an answer exists, the echo fold keeps it, provided every remaining
node's chunk resolves without error. -/
lemma foldNodes_of_resolved (resolver : Node → Except String String) (q a : String)
    (ns : List Node) (h : ∀ n ∈ ns, ∃ c, resolver n = Except.ok c) :
    foldNodes resolver q (some a) ns = Except.ok (some a) := by
  induction ns with
  | nil => rfl
  | cons n ns ih =>
    obtain ⟨c, hc⟩ := h n (List.mem_cons_self n ns)
    simp only [foldNodes, hc, echoSynth]
    exact ih (fun m hm => h m (List.mem_cons_of_mem _ hm))

/-- Querying an index whose nodes are all leaves yields the query text
joined by `:` with the first node's text. -/
lemma queryAux_leaves (g : ComposableGraph) (cfgs : List QueryConfig) (q : String)
    (fuel : Nat) (sid : String) (s : IndexStruct) (l : Node) (ls : List Node)
    (hs : lookupIndex g sid = some s)
    (hmode : (getQueryMap s.struct_type (resolveConfig s cfgs).1).isSome)
    (hnodes : s.nodes = l :: ls)
    (hleaf : ∀ n ∈ s.nodes, n.childIndexId = none) :
    queryAux g cfgs q (fuel + 1) sid = Except.ok (q ++ ":" ++ l.text) := by
  obtain ⟨e, he⟩ := Option.isSome_iff_exists.mp hmode
  have hl : l.childIndexId = none := hleaf l (by rw [hnodes]; exact List.mem_cons_self l ls)
  have hfold :
      foldNodes (chunkResolver g cfgs q fuel) q none (l :: ls) =
        Except.ok (some (q ++ ":" ++ l.text)) := by
    simp only [foldNodes, chunkResolver, hl, echoSynth]
    exact foldNodes_of_resolved _ q _ ls
      (fun m hm => ⟨m.text, by
        have : m.childIndexId = none :=
          hleaf m (by rw [hnodes]; exact List.mem_cons_of_mem _ hm)
        simp [chunkResolver, this]⟩)
  rw [queryAux_succ]
  simp only [hs, he, hnodes, hfold]

/-- The shape of the family of two-level graphs of claim C1: the root's
nodes are proxy nodes, each resolving to a child index whose nodes are all
leaves, with supported query modes throughout. -/
def twoLevelChildOk (g : ComposableGraph) (cfgs : List QueryConfig) (n : Node) : Prop :=
  ∃ cid cs c0 cls, n.childIndexId = some cid ∧ lookupIndex g cid = some cs ∧
    (getQueryMap cs.struct_type (resolveConfig cs cfgs).1).isSome = true ∧
    cs.nodes = c0 :: cls ∧ ∀ m ∈ cs.nodes, m.childIndexId = none

/-- C1: for a two-level composable graph queried with the echo synthesis
stub, the query returns exactly the query text once per recursion level
followed by the first selected leaf text: `q ++ ":" ++ (q ++ ":" ++ leaf)`
for a root composing child indices of depth one. -/
theorem C1_recursive_query_echo_trace (g : ComposableGraph)
    (cfgs : List QueryConfig) (q : String) (fuel : Nat)
    (rs : IndexStruct) (n0 : Node) (rest : List Node)
    (cid0 : String) (cs : IndexStruct) (leaf : Node) (ls : List Node)
    (hroot : lookupIndex g g.root_id = some rs)
    (hrmode : (getQueryMap rs.struct_type (resolveConfig rs cfgs).1).isSome)
    (hfirst : rs.nodes = n0 :: rest)
    (hn0 : n0.childIndexId = some cid0)
    (hc0 : lookupIndex g cid0 = some cs)
    (hcmode : (getQueryMap cs.struct_type (resolveConfig cs cfgs).1).isSome)
    (hcnodes : cs.nodes = leaf :: ls)
    (hcleaf : ∀ m ∈ cs.nodes, m.childIndexId = none)
    (hrest : ∀ n ∈ rest, twoLevelChildOk g cfgs n) :
    queryGraph g cfgs q (fuel + 2) = Except.ok (q ++ ":" ++ (q ++ ":" ++ leaf.text)) := by
  obtain ⟨e, he⟩ := Option.isSome_iff_exists.mp hrmode
  have hchild : queryAux g cfgs q (fuel + 1) cid0 = Except.ok (q ++ ":" ++ leaf.text) :=
    queryAux_leaves g cfgs q fuel cid0 cs leaf ls hc0 hcmode hcnodes hcleaf
  have hfold :
      foldNodes (chunkResolver g cfgs q (fuel + 1)) q none (n0 :: rest) =
        Except.ok (some (q ++ ":" ++ (q ++ ":" ++ leaf.text))) := by
    simp only [foldNodes, chunkResolver, hn0, hchild, echoSynth]
    exact foldNodes_of_resolved _ q _ rest (fun m hm => by
      obtain ⟨cid, ccs, c0, cls, hm1, hm2, hm3, hm4, hm5⟩ := hrest m hm
      exact ⟨q ++ ":" ++ c0.text, by
        simp only [chunkResolver, hm1]
        exact queryAux_leaves g cfgs q fuel cid ccs c0 cls hm2 hm3 hm4 hm5⟩)
  show queryAux g cfgs q (fuel + 1 + 1) g.root_id = _
  rw [queryAux_succ]
  simp only [hroot, he, hfirst, hfold]

/-- A concrete child list-index with two leaf documents ("This is a test
v2.", "This is another test."), as in the recursive-query test fixture. -/
def egChild1 : IndexStruct :=
  { index_id := "list1", struct_type := IndexStructType.LIST,
    nodes := [⟨"n1", "This is a test v2.", none⟩, ⟨"n2", "This is another test.", none⟩] }

/-- A second concrete child list-index with two leaf documents. -/
def egChild2 : IndexStruct :=
  { index_id := "list2", struct_type := IndexStructType.LIST,
    nodes := [⟨"n3", "This is a test.", none⟩, ⟨"n4", "Hello world.", none⟩] }

/-- A two-level graph: a root list-index composing the two child
list-indices through proxy nodes. -/
def egGraph : ComposableGraph :=
  { all_indices :=
      [("root", { index_id := "root", struct_type := IndexStructType.LIST,
                  nodes := [⟨"list1", "summary1", some "list1"⟩,
                            ⟨"list2", "summary2", some "list2"⟩] }),
       ("list1", egChild1), ("list2", egChild2)],
    root_id := "root" }

/-- Witness for C1: on the concrete two-level graph, `query "What is?"`
returns the literal trace showing the query text once per level plus the
first selected leaf text. -/
theorem C1_recursive_query_echo_trace_witness :
    queryGraph egGraph [] "What is?" 2 =
      Except.ok ("What is?" ++ ":" ++ ("What is?" ++ ":" ++ "This is a test v2.")) := by
  exact C1_recursive_query_echo_trace egGraph [] "What is?" 0
    { index_id := "root", struct_type := IndexStructType.LIST,
      nodes := [⟨"list1", "summary1", some "list1"⟩, ⟨"list2", "summary2", some "list2"⟩] }
    ⟨"list1", "summary1", some "list1"⟩ [⟨"list2", "summary2", some "list2"⟩]
    "list1" egChild1 ⟨"n1", "This is a test v2.", none⟩
    [⟨"n2", "This is another test.", none⟩]
    (by rfl) (by rfl) (by rfl) (by rfl) (by rfl) (by rfl) (by rfl)
    (by intro m hm; fin_cases hm <;> simp [egChild1])
    (by
      intro n hn
      fin_cases hn
      exact ⟨"list2", egChild2, ⟨"n3", "This is a test.", none⟩,
        [⟨"n4", "Hello world.", none⟩], by rfl, by rfl, by rfl, by rfl,
        by intro m hm; fin_cases hm <;> simp [egChild2]⟩)

/-! ### Query-config resolution (C4) -/

/-- `find?` returns the first entry of the list satisfying the predicate. -/
lemma find?_first {α : Type} (p : α → Bool) (pre : List α) (c : α) (post : List α)
    (hpre : ∀ b ∈ pre, p b = false) (hc : p c = true) :
    (pre ++ c :: post).find? p = some c := by
  induction pre with
  | nil => simp [List.find?_cons_of_pos, hc]
  | cons b pre ih =>
    rw [List.cons_append, List.find?_cons_of_neg]
    · exact ih (fun x hx => hpre x (List.mem_cons_of_mem _ hx))
    · simp [hpre b (List.mem_cons_self b pre)]

/-- C4: query-config resolution order.  The first entry whose index
identifier matches exactly wins (in particular an identifier-specific rule
overrides any earlier type-only rule); when no identifier matches, the
first entry whose type tag matches wins; when nothing matches, the
built-in default `(QueryMode.DEFAULT, [])` applies. -/
theorem C4_query_config_resolution (s : IndexStruct) :
    (∀ pre c post, (∀ b ∈ pre, idMatches s b = false) → idMatches s c = true →
      resolveConfig s (pre ++ c :: post) = (c.query_mode, c.query_kwargs)) ∧
    (∀ pre c post, (∀ b ∈ pre ++ c :: post, idMatches s b = false) →
      (∀ b ∈ pre, typeMatches s b = false) → typeMatches s c = true →
      resolveConfig s (pre ++ c :: post) = (c.query_mode, c.query_kwargs)) ∧
    (∀ cfgs : List QueryConfig,
      (∀ b ∈ cfgs, idMatches s b = false ∧ typeMatches s b = false) →
      resolveConfig s cfgs = (QueryMode.DEFAULT, [])) := by
  refine ⟨fun pre c post hpre hc => ?_, fun pre c post hid hpre hc => ?_,
    fun cfgs hall => ?_⟩
  · rw [resolveConfig, find?_first (idMatches s) pre c post hpre hc]
  · have hidnone : (pre ++ c :: post).find? (idMatches s) = none :=
      List.find?_eq_none.mpr (fun x hx => by simp [hid x hx])
    rw [resolveConfig, hidnone, find?_first (typeMatches s) pre c post hpre hc]
  · have h1 : cfgs.find? (idMatches s) = none :=
      List.find?_eq_none.mpr (fun x hx => by simp [(hall x hx).1])
    have h2 : cfgs.find? (typeMatches s) = none :=
      List.find?_eq_none.mpr (fun x hx => by simp [(hall x hx).2])
    rw [resolveConfig, h1, h2]

/-- A concrete vector-backed index struct named `vector1`. -/
def egVector1Struct : IndexStruct :=
  { index_id := "vector1", struct_type := IndexStructType.DICT, nodes := [] }

/-- A type-only config rule for the `DICT` type. -/
def egCfgTypeDict : QueryConfig :=
  { index_struct_type := IndexStructType.DICT, query_mode := QueryMode.DEFAULT }

/-- An identifier-specific config rule targeting index `vector1`. -/
def egCfgIdVector1 : QueryConfig :=
  { index_struct_id := some "vector1", index_struct_type := IndexStructType.DICT,
    query_mode := QueryMode.EMBEDDING,
    query_kwargs := [("similarity_top_k", "2"), ("required_keywords", "v2")] }

/-- Witness for C4: the identifier-specific rule for `vector1` overrides
the type-only `DICT` rule declared before it. -/
theorem C4_query_config_resolution_witness :
    resolveConfig egVector1Struct [egCfgTypeDict, egCfgIdVector1] =
      (QueryMode.EMBEDDING, [("similarity_top_k", "2"), ("required_keywords", "v2")]) :=
  (C4_query_config_resolution egVector1Struct).1 [egCfgTypeDict] egCfgIdVector1 []
    (by intro b hb; fin_cases hb; decide) (by decide)

/-! ### Graph construction (C5) -/

/-- The child references of the proxy nodes built by `from_indices` are
exactly the children's identifiers, in order. -/
lemma proxies_childIds (children : List IndexStruct) (summaries : List String)
    (h : children.length = summaries.length) :
    ((children.zip summaries).map fun p => mkProxyNode p.1 p.2).map Node.childIndexId
      = children.map (fun c => some c.index_id) := by
  induction children generalizing summaries with
  | nil => simp
  | cons c cs ih =>
    cases summaries with
    | nil => simp at h
    | cons t ts =>
      simp only [List.zip_cons_cons, List.map_cons, mkProxyNode]
      exact congrArg _ (ih ts (by simpa using h))

/-- C5: building a graph from `N` children and `N` summaries yields
`all_indices` with exactly `N + 1` distinct identifiers (the `N` children
plus the new root), and a root whose node set consists of exactly `N`
proxy nodes, each carrying a child-index reference to a distinct child
identifier. -/
theorem C5_from_indices_structure (root_type : IndexStructType) (root_id : String)
    (children : List IndexStruct) (summaries : List String) (N : Nat)
    (hN : children.length = N) (hS : summaries.length = N) (_hpos : 1 ≤ N)
    (hnodup : (children.map IndexStruct.index_id).Nodup)
    (hfresh : root_id ∉ children.map IndexStruct.index_id) :
    ((from_indices root_type root_id children summaries).all_indices.map Prod.fst).length
        = N + 1 ∧
    ((from_indices root_type root_id children summaries).all_indices.map Prod.fst).Nodup ∧
    ∃ rs, lookupIndex (from_indices root_type root_id children summaries) root_id
        = some rs ∧
      rs.nodes.length = N ∧
      rs.nodes.map Node.childIndexId = children.map (fun c => some c.index_id) ∧
      (rs.nodes.map Node.childIndexId).Nodup := by
  have hkeys : (from_indices root_type root_id children summaries).all_indices.map Prod.fst
      = root_id :: children.map IndexStruct.index_id := by
    simp [from_indices, Function.comp]
  have hids := proxies_childIds children summaries (by rw [hN, hS])
  refine ⟨by rw [hkeys]; simp [hN], by rw [hkeys]; exact List.nodup_cons.mpr ⟨hfresh, hnodup⟩,
    ⟨{ index_id := root_id, struct_type := root_type,
       nodes := (children.zip summaries).map fun p => mkProxyNode p.1 p.2 },
     ?_, ?_, ?_, ?_⟩⟩
  · simp [from_indices, lookupIndex, List.lookup]
  · simp [List.length_zip, hN, hS]
  · exact hids
  · rw [hids]
    have : children.map (fun c => some c.index_id)
        = (children.map IndexStruct.index_id).map some := by
      simp [Function.comp]
    rw [this]
    exact hnodup.map (Option.some_injective _)

/-- Witness for C5: the concrete two-child graph has three identifiers and
a root with two proxy nodes referencing the two distinct children. -/
theorem C5_from_indices_structure_witness :
    ((from_indices IndexStructType.LIST "root" [egChild1, egChild2]
        ["summary1", "summary2"]).all_indices.map Prod.fst).length = 2 + 1 ∧
    ((from_indices IndexStructType.LIST "root" [egChild1, egChild2]
        ["summary1", "summary2"]).all_indices.map Prod.fst).Nodup ∧
    ∃ rs, lookupIndex (from_indices IndexStructType.LIST "root" [egChild1, egChild2]
        ["summary1", "summary2"]) "root" = some rs ∧
      rs.nodes.length = 2 ∧
      rs.nodes.map Node.childIndexId
        = [egChild1, egChild2].map (fun c => some c.index_id) ∧
      (rs.nodes.map Node.childIndexId).Nodup :=
  C5_from_indices_structure IndexStructType.LIST "root" [egChild1, egChild2]
    ["summary1", "summary2"] 2 (by decide) (by decide) (by decide)
    (by decide) (by decide)

/-! ### Unsupported query mode (C7) -/

/-- C7: when the mode resolved for a reached index is absent from that
index type's query-mode map, the query aborts with the reported error at
that index — it never silently substitutes the `DEFAULT` mode (it returns
no `Except.ok` answer at all). -/
theorem C7_unsupported_mode_is_error (g : ComposableGraph) (cfgs : List QueryConfig)
    (q : String) (fuel : Nat) (sid : String) (s : IndexStruct)
    (hs : lookupIndex g sid = some s)
    (hmode : getQueryMap s.struct_type (resolveConfig s cfgs).1 = none) :
    queryAux g cfgs q (fuel + 1) sid = Except.error "Invalid query mode." ∧
    ∀ a, queryAux g cfgs q (fuel + 1) sid ≠ Except.ok a := by
  have h : queryAux g cfgs q (fuel + 1) sid = Except.error "Invalid query mode." := by
    rw [queryAux_succ]
    simp only [hs, hmode]
  exact ⟨h, fun a hc => by rw [h] at hc; exact Except.noConfusion hc⟩

/-- A graph whose root is a single simple vector index. -/
def egVecGraph : ComposableGraph :=
  { all_indices := [("vec", { index_id := "vec",
                              struct_type := IndexStructType.DICT,
                              nodes := [] })],
    root_id := "vec" }

/-- Witness for C7: requesting `SUMMARIZE` on a simple vector index (whose
query map holds only `DEFAULT` and `EMBEDDING`) aborts the query with the
unsupported-mode error. -/
theorem C7_unsupported_mode_is_error_witness :
    queryAux egVecGraph
        [{ index_struct_type := IndexStructType.DICT,
           query_mode := QueryMode.SUMMARIZE }] "Foo?" 1 "vec" =
      Except.error "Invalid query mode." :=
  (C7_unsupported_mode_is_error egVecGraph
    [{ index_struct_type := IndexStructType.DICT, query_mode := QueryMode.SUMMARIZE }]
    "Foo?" 0 "vec"
    { index_id := "vec", struct_type := IndexStructType.DICT, nodes := [] }
    (by decide) (by decide)).1

/-! ### The asynchronous entry point (C3)

Modelled from the spec (sections 4.4 and 5): the asynchronous variant
performs the identical algorithm but issues the synthesis calls and the
recursive child queries through suspension points instead of blocking
calls.  A `QTask` value is a computation interleaved with suspension
points; `QTask.run` drives it to completion. -/

/-- A suspended computation: either a finished value or a suspension point
followed by the rest of the computation. -/
inductive QTask (α : Type) where
  | done (a : α)
  | suspend (t : QTask α)

/-- Drive a suspended computation to completion. -/
def QTask.run {α : Type} : QTask α → α
  | QTask.done a => a
  | QTask.suspend t => QTask.run t

/-- Sequencing of suspended computations. -/
def QTask.bind {α β : Type} : QTask α → (α → QTask β) → QTask β
  | QTask.done a, f => f a
  | QTask.suspend t, f => QTask.suspend (QTask.bind t f)

lemma QTask.run_bind {α β : Type} (t : QTask α) (f : α → QTask β) :
    (QTask.bind t f).run = (f t.run).run := by
  induction t with
  | done a => rfl
  | suspend t ih => exact ih

/-- Modelled from the spec: the fold step of the asynchronous variant.
Identical to `foldNodes`, but each chunk resolution is issued through a
suspension point so the caller is never blocked. -/
def afoldNodes (resolver : Node → QTask (Except String String)) (q : String) :
    Option String → List Node → QTask (Except String (Option String))
  | prior, [] => QTask.done (Except.ok prior)
  | prior, n :: ns =>
    QTask.bind (QTask.suspend (resolver n)) fun chunkE =>
      match chunkE with
      | Except.error e => QTask.done (Except.error e)
      | Except.ok chunk => afoldNodes resolver q (some (echoSynth q prior chunk)) ns

/-- Modelled from the spec (section 4.4): `ComposableGraph.aquery` — the
asynchronous recursive dispatch, performing the identical algorithm as
`queryAux` with the child queries issued as suspended computations. -/
def aqueryAux (g : ComposableGraph) (cfgs : List QueryConfig) (q : String) :
    Nat → String → QTask (Except String String)
  | 0, _ => QTask.done (Except.error "max recursion depth reached.")
  | Nat.succ fuel, sid =>
    match lookupIndex g sid with
    | none => QTask.done (Except.error "index id not found.")
    | some s =>
      match getQueryMap s.struct_type (resolveConfig s cfgs).1 with
      | none => QTask.done (Except.error "Invalid query mode.")
      | some _engine =>
        let resolver : Node → QTask (Except String String) := fun n =>
          match n.childIndexId with
          | some cid => aqueryAux g cfgs q fuel cid
          | none => QTask.done (Except.ok n.text)
        QTask.bind (afoldNodes resolver q none s.nodes) fun r =>
          match r with
          | Except.error e => QTask.done (Except.error e)
          | Except.ok none => QTask.done (Except.error "empty index.")
          | Except.ok (some a) => QTask.done (Except.ok a)

/-- The asynchronous query entry point, started at the declared root. -/
def aqueryGraph (g : ComposableGraph) (cfgs : List QueryConfig) (q : String)
    (fuel : Nat) : QTask (Except String String) :=
  aqueryAux g cfgs q fuel g.root_id

/-- Running the asynchronous fold gives the synchronous fold, whenever the
two chunk resolvers agree pointwise. -/
lemma afoldNodes_run (aresolver : Node → QTask (Except String String))
    (resolver : Node → Except String String)
    (hres : ∀ n, (aresolver n).run = resolver n) (q : String) :
    ∀ (ns : List Node) (prior : Option String),
      (afoldNodes aresolver q prior ns).run = foldNodes resolver q prior ns := by
  intro ns
  induction ns with
  | nil => intro prior; rfl
  | cons n ns ih =>
    intro prior
    show (QTask.bind (QTask.suspend (aresolver n)) _).run = _
    rw [QTask.run_bind]
    show (match (aresolver n).run with
      | Except.error e => QTask.done (Except.error e)
      | Except.ok chunk =>
          afoldNodes aresolver q (some (echoSynth q prior chunk)) ns).run = _
    rw [hres n]
    unfold foldNodes
    cases resolver n with
    | error e => rfl
    | ok chunk => exact ih (some (echoSynth q prior chunk))

/-- C3: the asynchronous and synchronous entry points are observably
equivalent — for an identical graph, identical query text and identical
config list, running the asynchronous query yields exactly the
synchronous query's `Response`. -/
theorem C3_async_equals_sync (g : ComposableGraph) (cfgs : List QueryConfig)
    (q : String) (fuel : Nat) :
    (aqueryGraph g cfgs q fuel).run = queryGraph g cfgs q fuel := by
  suffices h : ∀ (fuel : Nat) (sid : String),
      (aqueryAux g cfgs q fuel sid).run = queryAux g cfgs q fuel sid from
    h fuel g.root_id
  intro fuel
  induction fuel with
  | zero => intro sid; rfl
  | succ fuel ih =>
    intro sid
    show (aqueryAux g cfgs q (fuel + 1) sid).run = _
    rw [queryAux_succ]
    unfold aqueryAux
    cases hs : lookupIndex g sid with
    | none => rfl
    | some s =>
      dsimp only
      cases hm : getQueryMap s.struct_type (resolveConfig s cfgs).1 with
      | none => rfl
      | some engine =>
        dsimp only
        rw [QTask.run_bind]
        rw [afoldNodes_run _ (chunkResolver g cfgs q fuel)
          (fun n => by
            cases hn : n.childIndexId with
            | none => simp [chunkResolver, hn, QTask.run]
            | some cid => simp [chunkResolver, hn, ih cid]) q s.nodes none]
        cases foldNodes (chunkResolver g cfgs q fuel) q none s.nodes with
        | error e => rfl
        | ok r => cases r with
          | none => rfl
          | some a => rfl

/-! ### The shared token-usage counter (C8)

Modelled from the spec (sections 5 and 6): every synthesis call reports a
token-usage delta that the engine adds to the running total exposed as
`total_tokens_used` on the shared service context.  `queryTokAux` is the
recursive dispatch instrumented with the counter (threaded explicitly, as
the single-writer discipline of one query allows); `synthDeltas` computes,
from the pure semantics, the list of deltas of all synthesis calls made at
every recursion level, in call order. -/

/-- The fold step instrumented with the token-usage counter.  `tokδ` is
the delta reported by one synthesis call as a function of the call's
inputs; each call adds its delta to the running total. -/
def foldNodesTok (resolverTok : Node → Nat → Except String String × Nat)
    (tokδ : String → Option String → String → Nat) (q : String) :
    Option String → List Node → Nat → Except String (Option String) × Nat
  | prior, [], c => (Except.ok prior, c)
  | prior, n :: ns, c =>
    match resolverTok n c with
    | (Except.error e, c1) => (Except.error e, c1)
    | (Except.ok chunk, c1) =>
      foldNodesTok resolverTok tokδ q (some (echoSynth q prior chunk)) ns
        (c1 + tokδ q prior chunk)

/-- The recursive dispatch instrumented with the token-usage counter. -/
def queryTokAux (tokδ : String → Option String → String → Nat)
    (g : ComposableGraph) (cfgs : List QueryConfig) (q : String) :
    Nat → String → Nat → Except String String × Nat
  | 0, _, c => (Except.error "max recursion depth reached.", c)
  | Nat.succ fuel, sid, c =>
    match lookupIndex g sid with
    | none => (Except.error "index id not found.", c)
    | some s =>
      match getQueryMap s.struct_type (resolveConfig s cfgs).1 with
      | none => (Except.error "Invalid query mode.", c)
      | some _engine =>
        let resolverTok : Node → Nat → Except String String × Nat := fun n c1 =>
          match n.childIndexId with
          | some cid => queryTokAux tokδ g cfgs q fuel cid c1
          | none => (Except.ok n.text, c1)
        match foldNodesTok resolverTok tokδ q none s.nodes c with
        | (Except.error e, c1) => (Except.error e, c1)
        | (Except.ok none, c1) => (Except.error "empty index.", c1)
        | (Except.ok (some a), c1) => (Except.ok a, c1)

/-- The instrumented query entry point, started at the declared root with
the service context's current counter value. -/
def queryTokGraph (tokδ : String → Option String → String → Nat)
    (g : ComposableGraph) (cfgs : List QueryConfig) (q : String) (fuel : Nat)
    (total_tokens_used : Nat) : Except String String × Nat :=
  queryTokAux tokδ g cfgs q fuel g.root_id total_tokens_used

/-- The deltas of the synthesis calls made while folding one node list, in
call order, computed from the pure query semantics. -/
def foldDeltas (resolverTr : Node → List Nat) (resolver : Node → Except String String)
    (tokδ : String → Option String → String → Nat) (q : String) :
    Option String → List Node → List Nat
  | _, [] => []
  | prior, n :: ns =>
    resolverTr n ++
      match resolver n with
      | Except.error _ => []
      | Except.ok chunk =>
        tokδ q prior chunk ::
          foldDeltas resolverTr resolver tokδ q (some (echoSynth q prior chunk)) ns

/-- The deltas of all synthesis calls made during a recursive query, over
every recursion level, in call order. -/
def synthDeltas (tokδ : String → Option String → String → Nat)
    (g : ComposableGraph) (cfgs : List QueryConfig) (q : String) :
    Nat → String → List Nat
  | 0, _ => []
  | Nat.succ fuel, sid =>
    match lookupIndex g sid with
    | none => []
    | some s =>
      match getQueryMap s.struct_type (resolveConfig s cfgs).1 with
      | none => []
      | some _engine =>
        foldDeltas
          (fun n =>
            match n.childIndexId with
            | some cid => synthDeltas tokδ g cfgs q fuel cid
            | none => [])
          (chunkResolver g cfgs q fuel) tokδ q none s.nodes

/-- The synthesis-call deltas of a whole query, started at the root. -/
def synthDeltasGraph (tokδ : String → Option String → String → Nat)
    (g : ComposableGraph) (cfgs : List QueryConfig) (q : String)
    (fuel : Nat) : List Nat :=
  synthDeltas tokδ g cfgs q fuel g.root_id

/-- The instrumented chunk resolver of one recursion level. -/
def chunkResolverTok (tokδ : String → Option String → String → Nat)
    (g : ComposableGraph) (cfgs : List QueryConfig) (q : String) (fuel : Nat) :
    Node → Nat → Except String String × Nat := fun n c =>
  match n.childIndexId with
  | some cid => queryTokAux tokδ g cfgs q fuel cid c
  | none => (Except.ok n.text, c)

/-- The per-node synthesis-call deltas contributed by chunk resolution. -/
def chunkDeltas (tokδ : String → Option String → String → Nat)
    (g : ComposableGraph) (cfgs : List QueryConfig) (q : String) (fuel : Nat) :
    Node → List Nat := fun n =>
  match n.childIndexId with
  | some cid => synthDeltas tokδ g cfgs q fuel cid
  | none => []

/-- One-step unfolding of `queryTokAux` at positive fuel. -/
lemma queryTokAux_succ (tokδ : String → Option String → String → Nat)
    (g : ComposableGraph) (cfgs : List QueryConfig) (q : String)
    (fuel : Nat) (sid : String) (c : Nat) :
    queryTokAux tokδ g cfgs q (fuel + 1) sid c =
      match lookupIndex g sid with
      | none => (Except.error "index id not found.", c)
      | some s =>
        match getQueryMap s.struct_type (resolveConfig s cfgs).1 with
        | none => (Except.error "Invalid query mode.", c)
        | some _engine =>
          match foldNodesTok (chunkResolverTok tokδ g cfgs q fuel) tokδ q none s.nodes c with
          | (Except.error e, c1) => (Except.error e, c1)
          | (Except.ok none, c1) => (Except.error "empty index.", c1)
          | (Except.ok (some a), c1) => (Except.ok a, c1) := rfl

/-- One-step unfolding of `synthDeltas` at positive fuel. -/
lemma synthDeltas_succ (tokδ : String → Option String → String → Nat)
    (g : ComposableGraph) (cfgs : List QueryConfig) (q : String)
    (fuel : Nat) (sid : String) :
    synthDeltas tokδ g cfgs q (fuel + 1) sid =
      match lookupIndex g sid with
      | none => []
      | some s =>
        match getQueryMap s.struct_type (resolveConfig s cfgs).1 with
        | none => []
        | some _engine =>
          foldDeltas (chunkDeltas tokδ g cfgs q fuel) (chunkResolver g cfgs q fuel)
            tokδ q none s.nodes := rfl

/-- The instrumented fold equals the pure fold paired with the initial
counter plus the sum of the fold's synthesis deltas, whenever the three
chunk resolvers agree pointwise in the same way. -/
lemma foldNodesTok_eq (resolverTok : Node → Nat → Except String String × Nat)
    (resolver : Node → Except String String) (resolverTr : Node → List Nat)
    (tokδ : String → Option String → String → Nat) (q : String)
    (hres : ∀ n c, resolverTok n c = (resolver n, c + (resolverTr n).sum)) :
    ∀ (ns : List Node) (prior : Option String) (c : Nat),
      foldNodesTok resolverTok tokδ q prior ns c =
        (foldNodes resolver q prior ns,
         c + (foldDeltas resolverTr resolver tokδ q prior ns).sum) := by
  intro ns
  induction ns with
  | nil => intro prior c; simp [foldNodesTok, foldNodes, foldDeltas]
  | cons n ns ih =>
    intro prior c
    simp only [foldNodesTok, foldNodes, foldDeltas, hres n c]
    cases resolver n with
    | error e => simp
    | ok chunk =>
      simp only [ih (some (echoSynth q prior chunk))]
      simp [Nat.add_assoc]

/-- The instrumented recursive dispatch equals the pure dispatch paired
with the initial counter plus the sum of all synthesis deltas. -/
lemma queryTokAux_eq (tokδ : String → Option String → String → Nat)
    (g : ComposableGraph) (cfgs : List QueryConfig) (q : String) :
    ∀ (fuel : Nat) (sid : String) (c : Nat),
      queryTokAux tokδ g cfgs q fuel sid c =
        (queryAux g cfgs q fuel sid, c + (synthDeltas tokδ g cfgs q fuel sid).sum) := by
  intro fuel
  induction fuel with
  | zero => intro sid c; simp [queryTokAux, queryAux, synthDeltas]
  | succ fuel ih =>
    intro sid c
    rw [queryTokAux_succ, queryAux_succ, synthDeltas_succ]
    cases hs : lookupIndex g sid with
    | none => simp
    | some s =>
      dsimp only
      cases hm : getQueryMap s.struct_type (resolveConfig s cfgs).1 with
      | none => simp
      | some engine =>
        dsimp only
        rw [foldNodesTok_eq (chunkResolverTok tokδ g cfgs q fuel)
          (chunkResolver g cfgs q fuel) (chunkDeltas tokδ g cfgs q fuel) tokδ q
          (fun n c1 => by
            cases hn : n.childIndexId with
            | none => simp [chunkResolverTok, chunkResolver, chunkDeltas, hn]
            | some cid =>
              simp [chunkResolverTok, chunkResolver, chunkDeltas, hn, ih cid])
          s.nodes none c]
        cases foldNodes (chunkResolver g cfgs q fuel) q none s.nodes with
        | error e => rfl
        | ok r => cases r with
          | none => rfl
          | some a => rfl

/-- C8: every synthesis call made during query execution adds its reported
token-usage delta to the single running total on the shared service
context, so after a recursive query the counter has increased by exactly
the sum of the deltas of all synthesis calls made at every recursion
level (and the instrumented query returns the pure query's Response). -/
theorem C8_total_tokens_used_sum (tokδ : String → Option String → String → Nat)
    (g : ComposableGraph) (cfgs : List QueryConfig) (q : String) (fuel : Nat)
    (total_tokens_used : Nat) :
    queryTokGraph tokδ g cfgs q fuel total_tokens_used =
      (queryGraph g cfgs q fuel,
       total_tokens_used + (synthDeltasGraph tokδ g cfgs q fuel).sum) :=
  queryTokAux_eq tokδ g cfgs q fuel g.root_id total_tokens_used

/-! ### Persistence (C2)

Modelled from the spec (section 6): the persisted graph format is a
structured document holding the graph-level metadata (root id) and, for
every index identifier in `all_indices`, its serialized `IndexStruct`
body.  `save_to_disk` / `load_from_disk` live outside the provided source
files. -/

/-- A structured (JSON-like) persisted document. -/
inductive JVal where
  | jnull
  | jstr (s : String)
  | jarr (xs : List JVal)
  | jobj (fields : List (String × JVal))

/-- Serialize an index-type tag. -/
def encodeType : IndexStructType → JVal
  | IndexStructType.LIST => JVal.jstr "list"
  | IndexStructType.TREE => JVal.jstr "tree"
  | IndexStructType.KEYWORD_TABLE => JVal.jstr "keyword_table"
  | IndexStructType.DICT => JVal.jstr "dict"

/-- Parse an index-type tag. -/
def decodeType : JVal → Option IndexStructType
  | JVal.jstr "list" => some IndexStructType.LIST
  | JVal.jstr "tree" => some IndexStructType.TREE
  | JVal.jstr "keyword_table" => some IndexStructType.KEYWORD_TABLE
  | JVal.jstr "dict" => some IndexStructType.DICT
  | _ => none

/-- Serialize one node, field by field. -/
def encodeNode (n : Node) : JVal :=
  JVal.jobj [("node_id", JVal.jstr n.nodeId), ("text", JVal.jstr n.text),
    ("child_index_id", match n.childIndexId with
      | none => JVal.jnull
      | some cid => JVal.jstr cid)]

/-- Parse one node; anything malformed is a load-time failure. -/
def decodeNode : JVal → Option Node
  | JVal.jobj [("node_id", JVal.jstr i), ("text", JVal.jstr t), ("child_index_id", c)] =>
    match c with
    | JVal.jnull => some { nodeId := i, text := t, childIndexId := none }
    | JVal.jstr cid => some { nodeId := i, text := t, childIndexId := some cid }
    | _ => none
  | _ => none

/-- Serialize one index struct: identifier, type tag and node registry. -/
def encodeIndexStruct (s : IndexStruct) : JVal :=
  JVal.jobj [("index_id", JVal.jstr s.index_id), ("type", encodeType s.struct_type),
    ("nodes", JVal.jarr (s.nodes.map encodeNode))]

/-- Parse a list of documents element-wise; one bad element fails the
whole load. -/
def decodeList {α : Type} (dec : JVal → Option α) : List JVal → Option (List α)
  | [] => some []
  | v :: vs =>
    match dec v, decodeList dec vs with
    | some a, some rest => some (a :: rest)
    | _, _ => none

/-- Parse one index struct. -/
def decodeIndexStruct : JVal → Option IndexStruct
  | JVal.jobj [("index_id", JVal.jstr i), ("type", ty), ("nodes", JVal.jarr ns)] =>
    match decodeType ty, decodeList decodeNode ns with
    | some t, some nodes => some { index_id := i, struct_type := t, nodes := nodes }
    | _, _ => none
  | _ => none

/-- Serialize one `all_indices` entry. -/
def encodeEntry (p : String × IndexStruct) : JVal :=
  JVal.jobj [("id", JVal.jstr p.1), ("struct", encodeIndexStruct p.2)]

/-- Parse one `all_indices` entry. -/
def decodeEntry : JVal → Option (String × IndexStruct)
  | JVal.jobj [("id", JVal.jstr k), ("struct", v)] =>
    match decodeIndexStruct v with
    | some s => some (k, s)
    | none => none
  | _ => none

/-- Modelled from the spec (section 6): `ComposableGraph.save_to_disk` —
the persisted form of a graph: the root identifier and the serialized body
of every index in `all_indices`. -/
def saveGraph (g : ComposableGraph) : JVal :=
  JVal.jobj [("root_id", JVal.jstr g.root_id),
    ("all_indices", JVal.jarr (g.all_indices.map encodeEntry))]

/-- Modelled from the spec (section 6): `ComposableGraph.load_from_disk` —
reconstruct the `all_indices` mapping and root from the persisted form; a
corrupt document is a fatal load error. -/
def loadGraph : JVal → Option ComposableGraph
  | JVal.jobj [("root_id", JVal.jstr r), ("all_indices", JVal.jarr es)] =>
    match decodeList decodeEntry es with
    | some entries => some { all_indices := entries, root_id := r }
    | none => none
  | _ => none

lemma decodeType_encodeType (t : IndexStructType) : decodeType (encodeType t) = some t := by
  cases t <;> rfl

lemma decodeNode_encodeNode (n : Node) : decodeNode (encodeNode n) = some n := by
  cases n with
  | mk i t c => cases c <;> rfl

/-- Element-wise decoding inverts element-wise encoding. -/
lemma decodeList_map_encode {α : Type} (enc : α → JVal) (dec : JVal → Option α)
    (h : ∀ a, dec (enc a) = some a) :
    ∀ l : List α, decodeList dec (l.map enc) = some l := by
  intro l
  induction l with
  | nil => rfl
  | cons a l ih => simp [decodeList, h, ih]

lemma decodeIndexStruct_encodeIndexStruct (s : IndexStruct) :
    decodeIndexStruct (encodeIndexStruct s) = some s := by
  cases s with
  | mk i t ns =>
    simp [encodeIndexStruct, decodeIndexStruct, decodeType_encodeType,
      decodeList_map_encode encodeNode decodeNode decodeNode_encodeNode]

lemma decodeEntry_encodeEntry (p : String × IndexStruct) :
    decodeEntry (encodeEntry p) = some p := by
  cases p with
  | mk k s => simp [encodeEntry, decodeEntry, decodeIndexStruct_encodeIndexStruct]

lemma loadGraph_saveGraph (g : ComposableGraph) : loadGraph (saveGraph g) = some g := by
  cases g with
  | mk entries r =>
    simp [saveGraph, loadGraph,
      decodeList_map_encode encodeEntry decodeEntry decodeEntry_encodeEntry]

/-- C2: saving a graph and loading it back yields a graph that is
structurally identical to the original — in particular its `query` on any
query text and config list returns exactly the original graph's
Response. -/
theorem C2_save_load_roundtrip (g : ComposableGraph) (cfgs : List QueryConfig)
    (q : String) (fuel : Nat) :
    ∃ g2, loadGraph (saveGraph g) = some g2 ∧
      queryGraph g2 cfgs q fuel = queryGraph g cfgs q fuel ∧ g2 = g :=
  ⟨g, loadGraph_saveGraph g, rfl, rfl⟩

/-! ### Vector strategy top-k selection (C6)

Modelled from the spec (section 4.2, vector strategy): compute a query
embedding, rank all stored embeddings by similarity, take the top `k`,
ties broken by insertion order.  For unit-norm embeddings (the basis
vectors of the scenario) the cosine similarity equals the dot product, so
the similarity is modelled by the dot product over integer vectors. -/

/-- Dot product of two embedding vectors (the cosine similarity of
unit-norm embeddings). -/
def dotProd : List Int → List Int → Int
  | a :: as, b :: bs => a * b + dotProd as bs
  | _, _ => 0

/-- The `i`-th standard unit basis vector in dimension `n`. -/
def stdBasis : Nat → Nat → List Int
  | 0, _ => []
  | Nat.succ n, 0 => 1 :: List.replicate n 0
  | Nat.succ n, Nat.succ i => 0 :: stdBasis n i

/-- Positions paired with similarity values, starting at position `s` —
the insertion order of the stored embeddings. -/
def enumIdx : Nat → List Int → List (Nat × Int)
  | _, [] => []
  | s, v :: vs => (s, v) :: enumIdx (s + 1) vs

/-- Extract the first pair of maximal similarity and the remaining pairs
in their original order (a tie is won by the earlier pair). -/
def selectBest : List (Nat × Int) → Option ((Nat × Int) × List (Nat × Int))
  | [] => none
  | x :: xs =>
    match selectBest xs with
    | none => some (x, [])
    | some (b, rest) => if b.2 > x.2 then some (b, x :: rest) else some (x, xs)

/-- The positions of the `k` most similar entries, best first, ties broken
by insertion order. -/
def topKIdx : Nat → List (Nat × Int) → List Nat
  | 0, _ => []
  | Nat.succ k, l =>
    match selectBest l with
    | none => []
    | some (b, rest) => b.1 :: topKIdx k rest

/-- Modelled from the spec: the vector strategy's node selection — the
positions (insertion order) of the `similarity_top_k` stored embeddings
most similar to the query embedding, in rank order. -/
def vectorTopK (k : Nat) (queryEmb : List Int) (embs : List (List Int)) : List Nat :=
  topKIdx k (enumIdx 0 (embs.map (dotProd queryEmb)))

lemma dotProd_replicate_zero_left (m : Nat) (bs : List Int) :
    dotProd (List.replicate m 0) bs = 0 := by
  induction m generalizing bs with
  | zero => rfl
  | succ k ih =>
    cases bs with
    | nil => rfl
    | cons b bs => simp [List.replicate, dotProd, ih]

lemma dotProd_replicate_zero_right (m : Nat) (as : List Int) :
    dotProd as (List.replicate m 0) = 0 := by
  induction m generalizing as with
  | zero => cases as <;> rfl
  | succ k ih =>
    cases as with
    | nil => rfl
    | cons a as => simp [List.replicate, dotProd, ih]

/-- Distinct basis vectors are orthonormal: the dot product is `1` on the
diagonal and `0` off it. -/
lemma dotProd_stdBasis (n i j : Nat) (hi : i < n) (hj : j < n) :
    dotProd (stdBasis n i) (stdBasis n j) = if i = j then 1 else 0 := by
  induction n generalizing i j with
  | zero => omega
  | succ n ih =>
    cases i with
    | zero =>
      cases j with
      | zero => simp [stdBasis, dotProd, dotProd_replicate_zero_left]
      | succ j => simp [stdBasis, dotProd, dotProd_replicate_zero_left]
    | succ i =>
      cases j with
      | zero => simp [stdBasis, dotProd, dotProd_replicate_zero_right]
      | succ j =>
        simpa [stdBasis, dotProd, Nat.succ_inj] using
          ih i j (by omega) (by omega)

lemma enumIdx_append (s : Nat) (l1 l2 : List Int) :
    enumIdx s (l1 ++ l2) = enumIdx s l1 ++ enumIdx (s + l1.length) l2 := by
  induction l1 generalizing s with
  | nil => simp [enumIdx]
  | cons v vs ih =>
    have h := ih (s + 1)
    simp only [List.cons_append, enumIdx, List.length_cons, List.append_eq] at h ⊢
    rw [h]
    have harith : s + 1 + vs.length = s + (vs.length + 1) := by omega
    rw [harith]

lemma snd_mem_of_mem_enumIdx (s : Nat) (l : List Int) (p : Nat × Int)
    (hp : p ∈ enumIdx s l) : p.2 ∈ l := by
  induction l generalizing s with
  | nil => cases hp
  | cons v vs ih =>
    rcases List.mem_cons.mp hp with h | h
    · rw [h]; exact List.mem_cons_self v vs
    · exact List.mem_cons_of_mem _ (ih (s + 1) h)

/-- One-step unfolding of `selectBest`. -/
lemma selectBest_cons (x : Nat × Int) (xs : List (Nat × Int)) :
    selectBest (x :: xs) =
      match selectBest xs with
      | none => some (x, [])
      | some (b, rest) => if b.2 > x.2 then some (b, x :: rest) else some (x, xs) := rfl

/-- On an all-zero-similarity list, the first pair wins. -/
lemma selectBest_all_zero (x : Nat × Int) (xs : List (Nat × Int))
    (h : ∀ p ∈ x :: xs, p.2 = 0) :
    selectBest (x :: xs) = some (x, xs) := by
  induction xs generalizing x with
  | nil => rfl
  | cons y ys ih =>
    have hy := ih y (fun p hp => h p (List.mem_cons_of_mem _ hp))
    have hy0 : y.2 = 0 := h y (by simp)
    have hx0 : x.2 = 0 := h x (by simp)
    rw [selectBest_cons, hy]
    simp [hy0, hx0]

/-- With exactly one similarity `1` among zeros, that pair wins and the
rest keep their order. -/
lemma selectBest_single_one (pre : List (Nat × Int)) (p : Nat × Int)
    (post : List (Nat × Int)) (hp : p.2 = 1)
    (hpre : ∀ x ∈ pre, x.2 = 0) (hpost : ∀ x ∈ post, x.2 = 0) :
    selectBest (pre ++ p :: post) = some (p, pre ++ post) := by
  induction pre with
  | nil =>
    cases post with
    | nil => rfl
    | cons y ys =>
      have h0 := selectBest_all_zero y ys hpost
      have hy0 : y.2 = 0 := hpost y (by simp)
      rw [List.nil_append, selectBest_cons, h0]
      simp [hy0, hp]
  | cons x xs ih =>
    have hx0 : x.2 = 0 := hpre x (by simp)
    have hrec := ih (fun z hz => hpre z (List.mem_cons_of_mem _ hz))
    rw [List.cons_append, selectBest_cons, hrec]
    simp [hx0, hp]

/-- Top-1 with one similarity `1` among zeros: exactly the matching
position. -/
lemma topKIdx_single_one_one (pre : List (Nat × Int)) (p : Nat × Int)
    (post : List (Nat × Int)) (hp : p.2 = 1)
    (hpre : ∀ x ∈ pre, x.2 = 0) (hpost : ∀ x ∈ post, x.2 = 0) :
    topKIdx 1 (pre ++ p :: post) = [p.1] := by
  simp [topKIdx, selectBest_single_one pre p post hp hpre hpost]

/-- Top-2 with one similarity `1` among zeros: the matching position
first, then the first remaining position in insertion order. -/
lemma topKIdx_single_one_two (pre : List (Nat × Int)) (p : Nat × Int)
    (post : List (Nat × Int)) (q0 : Nat × Int) (rest : List (Nat × Int))
    (hp : p.2 = 1)
    (hpre : ∀ x ∈ pre, x.2 = 0) (hpost : ∀ x ∈ post, x.2 = 0)
    (hshape : pre ++ post = q0 :: rest) :
    topKIdx 2 (pre ++ p :: post) = [p.1, q0.1] := by
  have hzero : ∀ x ∈ pre ++ post, x.2 = 0 := by
    intro x hx
    rcases List.mem_append.mp hx with h | h
    · exact hpre x h
    · exact hpost x h
  rw [show (2 : Nat) = 1 + 1 from rfl]
  simp only [topKIdx, selectBest_single_one pre p post hp hpre hpost, hshape]
  rw [selectBest_all_zero q0 rest (by rw [← hshape]; exact hzero)]

/-- C6: with stored embeddings that are pairwise-distinct unit basis
vectors and a query embedding equal to the one at position `m`,
`similarity_top_k = 1` selects exactly the node whose embedding equals the
query embedding, and `similarity_top_k = 2` selects that node first,
followed by the next-closest node by cosine similarity with the tie broken
by insertion order (the first other position). -/
theorem C6_vector_top_k (n : Nat) (ids : List Nat) (m : Nat)
    (hlt : ∀ i ∈ ids, i < n) (hnd : ids.Nodup) (hm : m < ids.length) :
    vectorTopK 1 (stdBasis n (ids.get ⟨m, hm⟩)) (ids.map (stdBasis n)) = [m] ∧
    (2 ≤ ids.length →
      vectorTopK 2 (stdBasis n (ids.get ⟨m, hm⟩)) (ids.map (stdBasis n)) =
        [m, if m = 0 then 1 else 0]) := by
  set t := ids.get ⟨m, hm⟩ with ht
  have htmem : t ∈ ids := List.get_mem ids m hm
  have htlt : t < n := hlt t htmem
  -- the similarity list is the characteristic function of `t` over `ids`
  have hsims : (ids.map (stdBasis n)).map (dotProd (stdBasis n t))
      = ids.map (fun i => if t = i then (1 : Int) else 0) := by
    rw [List.map_map]
    exact List.map_congr_left (fun i hi => by
      simp only [Function.comp]
      rw [dotProd_stdBasis n t i htlt (hlt i hi)])
  -- decompose `ids` at position `m`
  have hdec : ids.take m ++ t :: ids.drop (m + 1) = ids := by
    rw [ht, List.get_eq_getElem, List.getElem_cons_drop]
    exact List.take_append_drop m ids
  have hlen : (ids.take m).length = m := by
    simp [List.length_take]
    omega
  have hnd' : (ids.take m ++ t :: ids.drop (m + 1)).Nodup := by rw [hdec]; exact hnd
  obtain ⟨hnd1, hnd2, hdisj⟩ := List.nodup_append.mp hnd'
  have htake_ne : ∀ i ∈ ids.take m, t ≠ i :=
    fun i hi hti => hdisj hi (by rw [← hti]; exact List.mem_cons_self _ _)
  have hdrop_ne : ∀ i ∈ ids.drop (m + 1), t ≠ i :=
    fun i hi hti => (List.nodup_cons.mp hnd2).1 (by rw [hti]; exact hi)
  -- the enumerated similarity list splits around the single 1
  have hchi : ids.map (fun i => if t = i then (1 : Int) else 0)
      = (ids.take m).map (fun i => if t = i then (1 : Int) else 0)
        ++ (1 : Int) :: (ids.drop (m + 1)).map (fun i => if t = i then (1 : Int) else 0) := by
    have h := congrArg (List.map (fun i => if t = i then (1 : Int) else 0)) hdec
    rw [← h]
    simp
  have henum : enumIdx 0 ((ids.map (stdBasis n)).map (dotProd (stdBasis n t)))
      = enumIdx 0 ((ids.take m).map (fun i => if t = i then (1 : Int) else 0))
        ++ (m, (1 : Int)) ::
          enumIdx (m + 1) ((ids.drop (m + 1)).map (fun i => if t = i then (1 : Int) else 0)) := by
    rw [hsims, hchi, enumIdx_append, List.length_map, hlen]
    simp [enumIdx]
  have hprezero : ∀ x ∈ enumIdx 0 ((ids.take m).map (fun i => if t = i then (1 : Int) else 0)),
      x.2 = 0 := by
    intro x hx
    have hx2 := snd_mem_of_mem_enumIdx _ _ _ hx
    obtain ⟨i, hi, hval⟩ := List.mem_map.mp hx2
    rw [← hval, if_neg (htake_ne i hi)]
  have hpostzero : ∀ x ∈ enumIdx (m + 1)
      ((ids.drop (m + 1)).map (fun i => if t = i then (1 : Int) else 0)), x.2 = 0 := by
    intro x hx
    have hx2 := snd_mem_of_mem_enumIdx _ _ _ hx
    obtain ⟨i, hi, hval⟩ := List.mem_map.mp hx2
    rw [← hval, if_neg (hdrop_ne i hi)]
  constructor
  · show topKIdx 1 _ = [m]
    rw [henum]
    exact topKIdx_single_one_one _ (m, (1 : Int)) _ rfl hprezero hpostzero
  · intro h2
    show topKIdx 2 _ = [m, if m = 0 then 1 else 0]
    rw [henum]
    rcases Nat.eq_zero_or_pos m with hm0 | hmpos
    · -- the matching node is first in insertion order: the runner-up is position 1
      subst hm0
      cases hdrop : (ids.drop (0 + 1)).map (fun i => if t = i then (1 : Int) else 0) with
      | nil =>
        exfalso
        have hl := congrArg List.length hdrop
        rw [List.length_map, List.length_drop] at hl
        simp at hl
        omega
      | cons w ws =>
        have hpost' : ∀ x ∈ (0 + 1, w) :: enumIdx (0 + 1 + 1) ws, x.2 = 0 := by
          have h := hpostzero
          rw [hdrop] at h
          simpa [enumIdx] using h
        have hres := topKIdx_single_one_two [] (0, (1 : Int))
          ((0 + 1, w) :: enumIdx (0 + 1 + 1) ws) (0 + 1, w) (enumIdx (0 + 1 + 1) ws)
          rfl (by intro x hx; cases hx) hpost' rfl
        simp only [List.take_zero, List.map_nil, enumIdx, List.nil_append] at hres ⊢
        rw [hres]
        simp
    · -- the matching node is not first: the runner-up is position 0
      cases htk : (ids.take m).map (fun i => if t = i then (1 : Int) else 0) with
      | nil =>
        exfalso
        have hl := congrArg List.length htk
        rw [List.length_map, hlen] at hl
        simp at hl
        omega
      | cons w ws =>
        have hpre' : ∀ x ∈ (0, w) :: enumIdx (0 + 1) ws, x.2 = 0 := by
          have h := hprezero
          rw [htk] at h
          simpa [enumIdx] using h
        have hres := topKIdx_single_one_two ((0, w) :: enumIdx (0 + 1) ws) (m, (1 : Int))
          (enumIdx (m + 1) ((ids.drop (m + 1)).map (fun i => if t = i then (1 : Int) else 0)))
          (0, w)
          (enumIdx (0 + 1) ws ++ enumIdx (m + 1)
            ((ids.drop (m + 1)).map (fun i => if t = i then (1 : Int) else 0)))
          rfl hpre' hpostzero rfl
        simp only [enumIdx, List.cons_append] at hres ⊢
        rw [hres]
        simp [Nat.pos_iff_ne_zero.mp hmpos]

/-- Witness for C6: four stored embeddings at distinct unit basis vectors
in dimension 5 (the fixture of the vector tests); the query embedding
equals the fourth.  Top-1 selects exactly position 3; top-2 selects
position 3 first and then position 0, the first other position in
insertion order. -/
theorem C6_vector_top_k_witness :
    vectorTopK 1 (stdBasis 5 ([0, 1, 2, 3].get ⟨3, by decide⟩))
        ([0, 1, 2, 3].map (stdBasis 5)) = [3] ∧
    vectorTopK 2 (stdBasis 5 ([0, 1, 2, 3].get ⟨3, by decide⟩))
        ([0, 1, 2, 3].map (stdBasis 5)) = [3, 0] :=
  ⟨(C6_vector_top_k 5 [0, 1, 2, 3] 3 (by decide) (by decide) (by decide)).1,
   (C6_vector_top_k 5 [0, 1, 2, 3] 3 (by decide) (by decide) (by decide)).2 (by decide)⟩

/-! ### GPTSimpleVectorIndex constructor invariant (C9)

Shallow embedding of `GPTSimpleVectorIndex.__init__` (`vector_indices.py`,
lines 69-99).  The `SimpleVectorStore` adapter and the base-class
construction live outside the provided source files; they are modelled
from the spec as a thin store holding an embedding dictionary, with the
build path inserting each node's embedding into the store. -/

/-- An embedding dictionary: node id to embedding vector. -/
abbrev EmbeddingDict := List (String × List Int)

/-- Modelled from the spec: the simple vector store's data — a plain
embedding dictionary. -/
structure SimpleVectorStoreData where
  embedding_dict : EmbeddingDict
deriving DecidableEq, Repr

/-- The fields of `SimpleIndexDict` the constructor touches: the index
identifier and the embeddings dictionary stored on the index struct. -/
structure SimpleIndexDict where
  index_id : String
  embeddings_dict : EmbeddingDict
deriving DecidableEq, Repr

/-- Modelled from the spec: `SimpleVectorStore.__init__` — keep the
provided data dict, or start empty when none is given. -/
def simpleVectorStoreInit
    (simple_vector_store_data_dict : Option SimpleVectorStoreData) :
    SimpleVectorStoreData :=
  match simple_vector_store_data_dict with
  | none => { embedding_dict := [] }
  | some d => d

/-- Shallow embedding of `GPTSimpleVectorIndex.__init__` (lines 69-99):
when an index struct with a non-empty `embeddings_dict` is given, the
store data dict is inferred from it; the vector store is created from the
data dict; the base class keeps the given index struct or builds a fresh
one from the nodes, inserting each node's embedding into the vector
store; finally the store's embedding dict is copied back onto
`index_struct.embeddings_dict`. -/
def gptSimpleVectorIndexInit (nodes : Option EmbeddingDict)
    (index_struct : Option SimpleIndexDict)
    (simple_vector_store_data_dict : Option SimpleVectorStoreData)
    (fresh_id : String) : SimpleIndexDict × SimpleVectorStoreData :=
  let svsd :=
    match index_struct with
    | some s =>
      if 0 < s.embeddings_dict.length then
        some { embedding_dict := s.embeddings_dict }
      else simple_vector_store_data_dict
    | none => simple_vector_store_data_dict
  let vector_store := simpleVectorStoreInit svsd
  let built :=
    match index_struct with
    | some s => (s, vector_store)
    | none =>
      ({ index_id := fresh_id, embeddings_dict := [] },
       { embedding_dict := vector_store.embedding_dict ++ nodes.getD [] })
  ({ built.1 with embeddings_dict := built.2.embedding_dict }, built.2)

/-- C9: at the end of the constructor, `index_struct.embeddings_dict`
equals the vector store's embedding dictionary; and when a given index
struct has a non-empty `embeddings_dict` and no explicit store data is
passed, the vector store is initialised from that `embeddings_dict`, so
embeddings round-trip through the index struct. -/
theorem C9_embeddings_dict_roundtrip (nodes : Option EmbeddingDict)
    (index_struct : Option SimpleIndexDict)
    (svsd : Option SimpleVectorStoreData) (fresh_id : String)
    (s : SimpleIndexDict) (hs : s.embeddings_dict ≠ []) :
    ((gptSimpleVectorIndexInit nodes index_struct svsd fresh_id).1).embeddings_dict
      = ((gptSimpleVectorIndexInit nodes index_struct svsd fresh_id).2).embedding_dict ∧
    ((gptSimpleVectorIndexInit nodes (some s) none fresh_id).2).embedding_dict
      = s.embeddings_dict := by
  constructor
  · cases index_struct with
    | none => rfl
    | some u => rfl
  · have hpos : 0 < s.embeddings_dict.length := List.length_pos.mpr hs
    simp [gptSimpleVectorIndexInit, simpleVectorStoreInit, hpos]

/-- Witness for C9: a reloaded index struct holding one embedding
initialises the store with exactly that embedding, and the struct and
store agree afterwards. -/
theorem C9_embeddings_dict_roundtrip_witness :
    ((gptSimpleVectorIndexInit none
        (some { index_id := "v", embeddings_dict := [("n1", [1, 0])] }) none "new").1).embeddings_dict
      = ((gptSimpleVectorIndexInit none
        (some { index_id := "v", embeddings_dict := [("n1", [1, 0])] }) none "new").2).embedding_dict ∧
    ((gptSimpleVectorIndexInit none
        (some { index_id := "v", embeddings_dict := [("n1", [1, 0])] }) none "new").2).embedding_dict
      = [("n1", [1, 0])] :=
  C9_embeddings_dict_roundtrip none
    (some { index_id := "v", embeddings_dict := [("n1", [1, 0])] }) none "new"
    { index_id := "v", embeddings_dict := [("n1", [1, 0])] } (by decide)

/-! ### Backend-handle validation (C10)

Shallow embeddings of the backend-specific constructors of
`vector_indices.py`: each validates its required backend handle before
constructing its vector store and raises `ValueError` when the handle is
absent.  The construction result is the model of the index object holding
the constructed store. -/

/-- The Faiss-backed vector store (`FaissVectorStore(faiss_index)`). -/
structure FaissVectorStore (φ : Type) where
  faiss_index : φ

/-- The constructed `GPTFaissIndex` object. -/
structure GPTFaissIndexModel (φ : Type) where
  vector_store : FaissVectorStore φ

/-- Shallow embedding of `GPTFaissIndex.__init__` (lines 139-158): a
missing `faiss_index` raises `ValueError("faiss_index is required.")`
before anything else. -/
def gptFaissIndexInit (φ : Type) (faiss_index : Option φ) :
    Except String (GPTFaissIndexModel φ) :=
  match faiss_index with
  | none => Except.error "faiss_index is required."
  | some f => Except.ok { vector_store := { faiss_index := f } }

/-- The Qdrant-backed vector store. -/
structure QdrantVectorStore (κ : Type) where
  client : κ
  collection_name : String

/-- The constructed `GPTQdrantIndex` object. -/
structure GPTQdrantIndexModel (κ : Type) where
  vector_store : QdrantVectorStore κ

/-- Shallow embedding of `GPTQdrantIndex.__init__` (lines 402-424): a
missing `client` and then a missing `collection_name` raise `ValueError`
before the store is constructed. -/
def gptQdrantIndexInit (κ : Type) (client : Option κ)
    (collection_name : Option String) : Except String (GPTQdrantIndexModel κ) :=
  match client with
  | none => Except.error "client is required."
  | some c =>
    match collection_name with
    | none => Except.error "collection_name is required."
    | some cn => Except.ok { vector_store := { client := c, collection_name := cn } }

/-- The Chroma-backed vector store. -/
structure ChromaVectorStore (γ : Type) where
  chroma_collection : γ

/-- The constructed `GPTChromaIndex` object. -/
structure GPTChromaIndexModel (γ : Type) where
  vector_store : ChromaVectorStore γ

/-- Shallow embedding of `GPTChromaIndex.__init__` (lines 465-484): a
missing `chroma_collection` raises `ValueError`. -/
def gptChromaIndexInit (γ : Type) (chroma_collection : Option γ) :
    Except String (GPTChromaIndexModel γ) :=
  match chroma_collection with
  | none => Except.error "chroma_collection is required."
  | some cc => Except.ok { vector_store := { chroma_collection := cc } }

/-- The retrieval-plugin HTTP client. -/
structure PluginClient (ρ : Type) where
  endpoint_url : String
  bearer_token : String
  retries : Option ρ
  batch_size : Nat

/-- The constructed `ChatGPTRetrievalPluginIndex` object. -/
structure ChatGPTRetrievalPluginIndexModel (ρ : Type) where
  vector_store : PluginClient ρ

/-- Shallow embedding of `ChatGPTRetrievalPluginIndex.__init__`
(lines 583-611): a missing `endpoint_url` and then a missing
`bearer_token` raise `ValueError` before the client is constructed. -/
def chatGPTRetrievalPluginIndexInit (ρ : Type) (endpoint_url : Option String)
    (bearer_token : Option String) (retries : Option ρ) (batch_size : Nat) :
    Except String (ChatGPTRetrievalPluginIndexModel ρ) :=
  match endpoint_url with
  | none => Except.error "endpoint_url is required."
  | some u =>
    match bearer_token with
    | none => Except.error "bearer_token is required."
    | some b =>
      Except.ok { vector_store :=
        { endpoint_url := u, bearer_token := b, retries := retries,
          batch_size := batch_size } }

/-- C10: every backend-specific constructor validates its required handle
first and raises `ValueError` when it is absent — Faiss without
`faiss_index`, Qdrant without `client` or `collection_name`, Chroma
without `chroma_collection`, the retrieval plugin without `endpoint_url`
or `bearer_token` — and an index object is constructed exactly when every
required handle is present. -/
theorem C10_backend_handles_required (φ κ γ ρ : Type) (fi : Option φ)
    (c0 : κ) (c : Option κ) (cn : Option String) (cc : Option γ)
    (u0 : String) (u bt : Option String) (r : Option ρ) (bs : Nat) :
    gptFaissIndexInit φ none = Except.error "faiss_index is required." ∧
    (gptFaissIndexInit φ fi).isOk = fi.isSome ∧
    gptQdrantIndexInit κ none cn = Except.error "client is required." ∧
    gptQdrantIndexInit κ (some c0) none = Except.error "collection_name is required." ∧
    (gptQdrantIndexInit κ c cn).isOk = (c.isSome && cn.isSome) ∧
    gptChromaIndexInit γ none = Except.error "chroma_collection is required." ∧
    (gptChromaIndexInit γ cc).isOk = cc.isSome ∧
    chatGPTRetrievalPluginIndexInit ρ none bt r bs
      = Except.error "endpoint_url is required." ∧
    chatGPTRetrievalPluginIndexInit ρ (some u0) none r bs
      = Except.error "bearer_token is required." ∧
    (chatGPTRetrievalPluginIndexInit ρ u bt r bs).isOk = (u.isSome && bt.isSome) := by
  refine ⟨rfl, ?_, rfl, rfl, ?_, rfl, ?_, rfl, rfl, ?_⟩
  · cases fi <;> rfl
  · cases c <;> cases cn <;> rfl
  · cases cc <;> rfl
  · cases u <;> cases bt <;> rfl

end GptIndex
